import Mathlib

/-!
Shallow embedding of the `safe-password-utils` library (src/lib/index.ts).

Passwords are modelled as `List Char` (the source operates on JS strings;
every character class and pattern the library tests is ASCII, and `length`
agrees with JS `.length` on such strings).  IEEE-754 double arithmetic is
idealised as exact rational arithmetic over `ℚ`; the two transcendental
primitives the source uses, `Math.log2` and `Math.pow 2 ·`, are taken as
abstract parameters `l2 : ℕ → ℚ` and `pw2 : ℚ → ℚ`, so every theorem about
the numeric pipeline holds for every interpretation of those primitives.
-/

namespace Spu

/-! ### Character classifier (src/lib/index.ts lines 99-114)

The source tests `/[a-z]/`, `/[A-Z]/`, `/[0-9]/`, `/[^A-Za-z0-9]/`.
We express the ASCII ranges through code points. -/

def isLowerAscii (c : Char) : Bool := decide (97 ≤ c.toNat ∧ c.toNat ≤ 122)

def isUpperAscii (c : Char) : Bool := decide (65 ≤ c.toNat ∧ c.toNat ≤ 90)

def isDigitAscii (c : Char) : Bool := decide (48 ≤ c.toNat ∧ c.toNat ≤ 57)

/-- The `/[^A-Za-z0-9]/` class: the complement of the other three. -/
def isSymbolChar (c : Char) : Bool := !(isLowerAscii c || isUpperAscii c || isDigitAscii c)

structure ContainsFlags where
  lowercase : Bool
  uppercase : Bool
  number : Bool
  symbol : Bool
deriving Repr, DecidableEq

structure CharCounts where
  lowercase : Nat
  uppercase : Nat
  numbers : Nat
  special : Nat
deriving Repr, DecidableEq

/-- The `contains` record of `checkPasswordStrength`. -/
def containsOf (p : List Char) : ContainsFlags :=
  ⟨p.any isLowerAscii, p.any isUpperAscii, p.any isDigitAscii, p.any isSymbolChar⟩

/-- The `counts` record of `checkPasswordStrength` (`match(...g).length`). -/
def countsOf (p : List Char) : CharCounts :=
  ⟨p.countP isLowerAscii, p.countP isUpperAscii, p.countP isDigitAscii, p.countP isSymbolChar⟩

/-! ### Strength resolver data model (src/lib/index.ts lines 7-68) -/

structure PasswordOption where
  id : Nat
  value : String
  minDiversity : Nat
  minLength : Nat
deriving Repr, DecidableEq

def defaultOptions : List PasswordOption :=
  [⟨0, "Too weak", 0, 0⟩, ⟨1, "Weak", 2, 8⟩, ⟨2, "Medium", 4, 10⟩, ⟨3, "Strong", 4, 12⟩]

/-- Optional hard requirements; `none` models a JS `undefined` field. -/
structure PasswordRequirements where
  requireCapital : Option Bool
  requireNumber : Option Bool
  requireSpecial : Option Bool
  minCapitals : Option Nat
  minNumbers : Option Nat
  minSpecial : Option Nat
deriving Repr, DecidableEq

structure PasswordStrength where
  id : Nat
  value : String
  contains : ContainsFlags
  length : Nat
  counts : Option CharCounts
deriving Repr, DecidableEq

/-- JS truthiness of an optional boolean (`undefined` and `false` are falsy). -/
def truthyBool (o : Option Bool) : Bool := o.getD false

/-- JS test `min && count < min`: an `undefined` or zero minimum never fails. -/
def minFails (o : Option Nat) (count : Nat) : Bool :=
  match o with
  | none => false
  | some m => m != 0 && count < m

/-- `Object.values(contains).filter(Boolean).length` (line 135). -/
def varietyCount (c : ContainsFlags) : Nat :=
  [c.lowercase, c.uppercase, c.number, c.symbol].countP id

/-- A tier's predicate `length >= opt.minLength && varietyCount >= opt.minDiversity`. -/
def tierQualifies (len div : Nat) (opt : PasswordOption) : Bool :=
  decide (opt.minLength ≤ len) && decide (opt.minDiversity ≤ div)

/-- JS `Array.prototype.findIndex`, with `none` for `-1`. -/
def jsFindIndex (q : α → Bool) : List α → Option Nat
  | [] => none
  | a :: l => if q a then some 0 else (jsFindIndex q l).map (· + 1)

def dfltOption : PasswordOption := ⟨0, "", 0, 0⟩

/-- The tier index computed by lines 138-152: `findIndex` (with `-1`
mapped to 0), then the upgrade `while` loop, which advances exactly
once per consecutive qualifying tier after the start index. -/
def strengthIndex (opts : List PasswordOption) (len div : Nat) : Nat :=
  let q := tierQualifies len div
  let start := (jsFindIndex q opts).getD 0
  start + ((opts.drop (start + 1)).takeWhile q).length

/-- `checkPasswordStrength` (src/lib/index.ts lines 94-163). -/
def checkPasswordStrength (password : List Char) (requirements : Option PasswordRequirements)
    (options : List PasswordOption) : PasswordStrength :=
  let contains := containsOf password
  let counts := countsOf password
  let length := password.length
  let proceed : Unit → PasswordStrength := fun _ =>
    let t := options.getD (strengthIndex options length (varietyCount contains)) dfltOption
    ⟨t.id, t.value, contains, length, some counts⟩
  match requirements with
  | none => proceed ()
  | some req =>
    if truthyBool req.requireCapital && !contains.uppercase then
      ⟨0, "Too weak", contains, length, none⟩
    else if truthyBool req.requireNumber && !contains.number then
      ⟨0, "Too weak", contains, length, none⟩
    else if truthyBool req.requireSpecial && !contains.symbol then
      ⟨0, "Too weak", contains, length, none⟩
    else if minFails req.minCapitals counts.uppercase then
      ⟨0, "Too weak", contains, length, some counts⟩
    else if minFails req.minNumbers counts.numbers then
      ⟨0, "Too weak", contains, length, some counts⟩
    else if minFails req.minSpecial counts.special then
      ⟨0, "Too weak", contains, length, some counts⟩
    else proceed ()

/-! ### Entropy estimator (src/lib/index.ts lines 233-288)

`Math.log2` is abstracted as a parameter `l2 : ℕ → ℚ` (its value on the
integer pool sizes); `Math.round` is floor of `x + 1/2`, as in JS. -/

structure EntropyDetails where
  entropy : ℚ
  poolSize : Nat
  length : Nat
  characterSets : ContainsFlags
deriving DecidableEq

/-- JS `Math.round`: nearest integer, halves toward positive infinity. -/
def jsRound (x : ℚ) : ℤ := ⌊x + 1 / 2⌋

/-- `Math.round(x * 100) / 100`: round to two decimal places. -/
def roundTwo (x : ℚ) : ℚ := (jsRound (x * 100) : ℚ) / 100

/-- The pool-size accumulation of lines 271-275. -/
def poolSizeOf (cs : ContainsFlags) : Nat :=
  (if cs.lowercase then 26 else 0) + (if cs.uppercase then 26 else 0) +
    (if cs.number then 10 else 0) + (if cs.symbol then 33 else 0)

/-- `calculatePasswordEntropy`, parametric in the `Math.log2` primitive. -/
def calculatePasswordEntropy (l2 : Nat → ℚ) (p : List Char) : EntropyDetails :=
  let characterSets := containsOf p
  if p.length = 0 then ⟨0, 0, 0, characterSets⟩
  else
    let poolSize := poolSizeOf characterSets
    ⟨roundTwo ((p.length : ℚ) * l2 poolSize * (1045 / 1000)), poolSize, p.length, characterSets⟩

/-! ### Crack-time estimator (src/lib/index.ts lines 294-392) -/

inductive TimeCtx
  | online
  | offline
deriving Repr, DecidableEq

def timeUnits : List (String × Nat) :=
  [("year", 31536000), ("month", 2592000), ("week", 604800), ("day", 86400),
    ("hour", 3600), ("minute", 60), ("second", 1)]

/-- The `for` loop of lines 332-337: first (largest) unit with floored
quotient at least one wins; the rendered string pluralises when the
value differs from one. -/
def formatLoop (s : ℚ) : List (String × Nat) → Option String
  | [] => none
  | (u, usec) :: rest =>
    let value := ⌊s / (usec : ℚ)⌋
    if 1 ≤ value then some (toString value ++ " " ++ u ++ (if value ≠ 1 then "s" else ""))
    else formatLoop s rest

/-- The context-dependent instantly threshold of line 316. -/
def instantThreshold (context : TimeCtx) : ℚ :=
  if context = TimeCtx.online then 1 / 1000000 else 1

/-- `formatTimeEstimate` (lines 312-340).  The input is `none` for a
non-finite double (`Number.isFinite` false), `some s` otherwise. -/
def formatTimeEstimate (seconds : Option ℚ) (context : TimeCtx) : String :=
  match seconds with
  | none => "centuries"
  | some s =>
    if s < instantThreshold context then "instantly"
    else if (31536000 * 200 : ℚ) < s then "centuries"
    else (formatLoop s timeUnits).getD "instantly"

structure CrackTimes where
  onlineThrottling100PerHour : ℚ
  onlineNoThrottling10PerSecond : ℚ
  offlineSlowHashing1e4PerSecond : ℚ
  offlineFastHashing1e10PerSecond : ℚ
  ttcOnlineThrottling : String
  ttcOnlineNoThrottling : String
  ttcOfflineSlowHashing : String
  ttcOfflineFastHashing : String
deriving DecidableEq

/-- `estimateCrackTime` (lines 347-392), parametric in `Math.log2` (`l2`)
and `Math.pow 2 ·` (`pw2`).  The nested `timeToCrack` record is flattened
into the four `ttc…` fields. -/
def estimateCrackTime (l2 : Nat → ℚ) (pw2 : ℚ → ℚ) (p : List Char) : CrackTimes :=
  let entropy := (calculatePasswordEntropy l2 p).entropy
  if entropy = 0 then
    ⟨0, 0, 0, 0, "instantly", "instantly", "instantly", "instantly"⟩
  else
    let guessesNeeded := pw2 entropy
    let t1 := guessesNeeded / (100 / 3600)
    let t2 := guessesNeeded / 10
    let t3 := guessesNeeded / 10000
    let t4 := guessesNeeded / 10000000000
    ⟨t1, t2, t3, t4,
      formatTimeEstimate (some t1) TimeCtx.online, formatTimeEstimate (some t2) TimeCtx.online,
      formatTimeEstimate (some t3) TimeCtx.offline, formatTimeEstimate (some t4) TimeCtx.offline⟩

/-! ### Pattern analyzer (commonPasswords.test.ts copy of index.ts, lines 439-570) -/

structure PasswordPatternAnalysis where
  hasKeyboardPattern : Bool
  hasSequentialChars : Bool
  hasRepeatedChars : Bool
  hasDatePattern : Bool
  patternRiskScore : Nat
  detectedPatterns : List String
  suggestions : List String
deriving Repr, DecidableEq

/-- JS `String.prototype.includes`: does `needle` occur contiguously in
the haystack?  Scans every start position. -/
def jsIncludes (needle : List Char) : List Char → Bool
  | [] => needle.isEmpty
  | c :: rest => needle.isPrefixOf (c :: rest) || jsIncludes needle rest

def KEYBOARD_PATTERNS : List (List Char) :=
  ["qwerty".toList, "asdfgh".toList, "zxcvbn".toList, "qwertz".toList, "azerty".toList,
    "1qaz".toList, "2wsx".toList, "3edc".toList, "4rfv".toList, "5tgb".toList,
    "6yhn".toList, "7ujm".toList, "8ik,".toList, "9ol.".toList, "0p;/".toList,
    "qaz".toList, "wsx".toList, "edc".toList, "rfv".toList, "tgb".toList,
    "yhn".toList, "ujm".toList, "ik,".toList, "ol.".toList, "p;/".toList]

/-- The keyboard loop (lines 490-496): first listed pattern contained in
the lowercased password, `break` on the first hit. -/
def firstKeyboardHit (lp : List Char) : Option (List Char) :=
  KEYBOARD_PATTERNS.find? (fun pat => jsIncludes pat lp)

/-- The three-character windows `base.substring(i, i+3)` for `i` up to
`base.length - 3`, in ascending order of `i`. -/
def tripleWindows (base : List Char) : List (List Char) :=
  (List.range (base.length - 2)).map (fun i => (base.drop i).take 3)

/-- One sequential-characters loop (lines 500-507 alphabetic, 511-518
numeric): first three-character ascending window contained in the
password, `break` on the first hit. -/
def firstSeqHit (base lp : List Char) : Option (List Char) :=
  (tripleWindows base).find? (fun s => jsIncludes s lp)

def alphaBase : List Char := "abcdefghijklmnopqrstuvwxyz".toList

def numBase : List Char := "0123456789".toList

/-- The regex `/(.)\1{2,}/` (lines 521-528): earliest position whose
character repeats at least three times consecutively; the match is the
whole greedy run of that character. -/
def firstRepeatRun : List Char → Option (List Char)
  | [] => none
  | c :: rest =>
    let run := (c :: rest).takeWhile (fun x => x == c)
    if 3 ≤ run.length then some run else firstRepeatRun rest

/-- The regex `/(19|20)\d{2}/` (lines 531-538): earliest four-character
window reading `19` or `20` followed by two digits. -/
def firstDateHit : List Char → Option (List Char)
  | c1 :: c2 :: c3 :: c4 :: rest =>
    if ((c1 = '1' ∧ c2 = '9') ∨ (c1 = '2' ∧ c2 = '0')) ∧
        isDigitAscii c3 ∧ isDigitAscii c4 then
      some [c1, c2, c3, c4]
    else firstDateHit (c2 :: c3 :: c4 :: rest)
  | _ => none

def quoteWrap (s : List Char) : String := "\"" ++ String.mk s ++ "\""

def kbSuggestion : String := "Avoid keyboard patterns like \"qwerty\" or \"asdfgh\""

def seqSuggestion : String := "Avoid sequential characters like \"abc\" or \"123\""

def repSuggestion : String := "Avoid repeating the same character multiple times"

def dateSuggestion : String := "Avoid using years or dates that might be associated with you"

def genericSuggestion : String := "Consider using a randomly generated password instead"

/-- `analyzePasswordPatterns` (lines 477-570).  Both sequential loops run
unconditionally; the sequential flag is the disjunction, yet its risk
weight is added once.  Pattern entries and suggestions are appended in the
fixed source order.  `toLowerCase` is modelled by `Char.toLower`; the two
agree on the ASCII range, which is all the detectors ever match. -/
def analyzePasswordPatterns (password : List Char) : PasswordPatternAnalysis :=
  let lower := password.map Char.toLower
  let kb := firstKeyboardHit lower
  let alpha := firstSeqHit alphaBase lower
  let num := firstSeqHit numBase lower
  let rep := firstRepeatRun lower
  let date := firstDateHit lower
  let hasKeyboardPattern := kb.isSome
  let hasSequentialChars := alpha.isSome || num.isSome
  let hasRepeatedChars := rep.isSome
  let hasDatePattern := date.isSome
  let riskScore := (if hasKeyboardPattern then 30 else 0) + (if hasSequentialChars then 25 else 0) +
    (if hasRepeatedChars then 20 else 0) + (if hasDatePattern then 25 else 0)
  let patternRiskScore := min 100 riskScore
  let detectedPatterns :=
    (kb.map (fun s => "Keyboard pattern: " ++ quoteWrap s)).toList ++
    (alpha.map (fun s => "Sequential letters: " ++ quoteWrap s)).toList ++
    (num.map (fun s => "Sequential numbers: " ++ quoteWrap s)).toList ++
    (rep.map (fun s => "Repeated characters: " ++ quoteWrap s)).toList ++
    (date.map (fun s => "Possible date/year: " ++ quoteWrap s)).toList
  let suggestions :=
    (if hasKeyboardPattern then [kbSuggestion] else []) ++
    (if hasSequentialChars then [seqSuggestion] else []) ++
    (if hasRepeatedChars then [repSuggestion] else []) ++
    (if hasDatePattern then [dateSuggestion] else []) ++
    (if 50 < patternRiskScore then [genericSuggestion] else [])
  ⟨hasKeyboardPattern, hasSequentialChars, hasRepeatedChars, hasDatePattern,
    patternRiskScore, detectedPatterns, suggestions⟩

/-! ## Helper lemmas -/

/-- The four regex classes of the classifier are exhaustive and pairwise
disjoint: every character falls in exactly one. -/
theorem charClass_sum (c : Char) :
    ((if isLowerAscii c = true then 1 else 0) + (if isUpperAscii c = true then 1 else 0) +
      (if isDigitAscii c = true then 1 else 0) + (if isSymbolChar c = true then 1 else 0) :
      Nat) = 1 := by
  by_cases h1 : 97 ≤ c.toNat ∧ c.toNat ≤ 122 <;>
    by_cases h2 : 65 ≤ c.toNat ∧ c.toNat ≤ 90 <;>
      by_cases h3 : 48 ≤ c.toNat ∧ c.toNat ≤ 57 <;>
        first
          | (exfalso; omega)
          | simp [isLowerAscii, isUpperAscii, isDigitAscii, isSymbolChar, h1, h2, h3]

/-- Sum of the four per-class counts over any character list is its length. -/
theorem countP_classes_sum (p : List Char) :
    p.countP isLowerAscii + p.countP isUpperAscii + p.countP isDigitAscii +
      p.countP isSymbolChar = p.length := by
  induction p with
  | nil => rfl
  | cons c cs ih =>
    simp only [List.countP_cons, List.length_cons]
    have := charClass_sum c
    omega

theorem any_iff_countP_pos (f : Char → Bool) (l : List Char) :
    l.any f = true ↔ 0 < l.countP f := by
  rw [List.any_eq_true, List.countP_pos_iff]

/-- On every path, `checkPasswordStrength` reports the classifier's
presence flags and the password's length unchanged. -/
theorem check_contains_length (p : List Char) (reqs : Option PasswordRequirements)
    (opts : List PasswordOption) :
    (checkPasswordStrength p reqs opts).contains = containsOf p ∧
      (checkPasswordStrength p reqs opts).length = p.length := by
  cases reqs with
  | none => exact ⟨rfl, rfl⟩
  | some req =>
    unfold checkPasswordStrength
    dsimp only
    split_ifs <;> exact ⟨rfl, rfl⟩

/-! ## C9 -/

/-- C9: the four character counts computed by `checkPasswordStrength`
partition the password — their sum is the reported length — and each
presence flag in `contains` is true exactly when the corresponding count
is positive, on every requirements/options path. -/
theorem C9_counts_partition (p : List Char) (reqs : Option PasswordRequirements)
    (opts : List PasswordOption) :
    (countsOf p).lowercase + (countsOf p).uppercase + (countsOf p).numbers +
        (countsOf p).special = (checkPasswordStrength p reqs opts).length ∧
      ((checkPasswordStrength p reqs opts).contains.lowercase = true ↔
        0 < (countsOf p).lowercase) ∧
      ((checkPasswordStrength p reqs opts).contains.uppercase = true ↔
        0 < (countsOf p).uppercase) ∧
      ((checkPasswordStrength p reqs opts).contains.number = true ↔
        0 < (countsOf p).numbers) ∧
      ((checkPasswordStrength p reqs opts).contains.symbol = true ↔
        0 < (countsOf p).special) := by
  obtain ⟨hc, hl⟩ := check_contains_length p reqs opts
  rw [hc, hl]
  refine ⟨countP_classes_sum p, ?_, ?_, ?_, ?_⟩
  · exact any_iff_countP_pos isLowerAscii p
  · exact any_iff_countP_pos isUpperAscii p
  · exact any_iff_countP_pos isDigitAscii p
  · exact any_iff_countP_pos isSymbolChar p

/-! ## Resolver lemmas -/

theorem jsFindIndex_head {q : α → Bool} {a : α} {l : List α} (h : q a = true) :
    jsFindIndex q (a :: l) = some 0 := by
  simp [jsFindIndex, h]

theorem getD_takeWhile_true (q : α → Bool) (l : List α) (d : α) :
    ∀ k, k < (l.takeWhile q).length → q (l.getD k d) = true := by
  induction l with
  | nil => intro k hk; simp [List.takeWhile] at hk
  | cons a t ih =>
    intro k hk
    by_cases hq : q a
    · cases k with
      | zero => simpa using hq
      | succ k =>
        rw [List.takeWhile_cons, if_pos hq] at hk
        simp only [List.length_cons, Nat.succ_lt_succ_iff] at hk
        simpa using ih k hk
    · rw [List.takeWhile_cons, if_neg hq] at hk
      simp at hk

theorem getD_after_takeWhile (q : α → Bool) (l : List α) (d : α)
    (h : (l.takeWhile q).length < l.length) :
    q (l.getD (l.takeWhile q).length d) = false := by
  induction l with
  | nil => simp at h
  | cons a t ih =>
    by_cases hq : q a
    · rw [List.takeWhile_cons, if_pos hq] at h ⊢
      simp only [List.length_cons, Nat.succ_lt_succ_iff] at h
      simpa using ih h
    · rw [List.takeWhile_cons, if_neg hq] at h ⊢
      simpa using hq

theorem takeWhile_length_mono {q1 q2 : α → Bool} (h : ∀ a, q1 a = true → q2 a = true) :
    ∀ l : List α, (l.takeWhile q1).length ≤ (l.takeWhile q2).length := by
  intro l
  induction l with
  | nil => simp
  | cons a t ih =>
    by_cases h1 : q1 a
    · rw [List.takeWhile_cons, if_pos h1, List.takeWhile_cons, if_pos (h a h1)]
      simpa using ih
    · simp [List.takeWhile_cons, if_neg h1]

theorem getD_drop_one (l : List α) (k : Nat) (d : α) :
    (l.drop 1).getD k d = l.getD (k + 1) d := by
  cases l <;> simp [List.getD]

/-- Under the tier-0 invariant the `findIndex` phase always lands on
index 0, so the resolved index is the length of the maximal qualifying
run of tiers after tier 0. -/
theorem strengthIndex_eq_run (opts : List PasswordOption) (len div : Nat)
    (h0 : tierQualifies len div (opts.getD 0 dfltOption) = true) (hne : opts ≠ []) :
    strengthIndex opts len div = ((opts.drop 1).takeWhile (tierQualifies len div)).length := by
  cases opts with
  | nil => exact absurd rfl hne
  | cons o rest =>
    have h0' : tierQualifies len div o = true := by simpa using h0
    simp only [strengthIndex, jsFindIndex_head h0', Option.getD_some, Nat.zero_add]

theorem takeWhile_length_le (q : α → Bool) : ∀ l : List α, (l.takeWhile q).length ≤ l.length := by
  intro l
  induction l with
  | nil => simp
  | cons a t ih =>
    by_cases hq : q a
    · simp [List.takeWhile_cons, hq]; omega
    · simp [List.takeWhile_cons, hq]

theorem strengthIndex_lt (opts : List PasswordOption) (len div : Nat)
    (h0 : tierQualifies len div (opts.getD 0 dfltOption) = true) (hne : opts ≠ []) :
    strengthIndex opts len div < opts.length := by
  rw [strengthIndex_eq_run opts len div h0 hne]
  have hle := takeWhile_length_le (tierQualifies len div) (opts.drop 1)
  cases opts with
  | nil => exact absurd rfl hne
  | cons o rest => simp at hle ⊢; omega

/-- The tier predicate is monotone in the password length. -/
theorem tierQualifies_mono_len {len1 len2 div : Nat} (h : len1 ≤ len2) (t : PasswordOption)
    (hq : tierQualifies len1 div t = true) : tierQualifies len2 div t = true := by
  simp only [tierQualifies, Bool.and_eq_true, decide_eq_true_eq] at hq ⊢
  exact ⟨hq.1.trans h, hq.2⟩

/-- The no-requirements result reads its id and value off the resolved tier. -/
theorem check_id_value (p : List Char) (opts : List PasswordOption) :
    (checkPasswordStrength p none opts).id =
        (opts.getD (strengthIndex opts p.length (varietyCount (containsOf p))) dfltOption).id ∧
      (checkPasswordStrength p none opts).value =
        (opts.getD (strengthIndex opts p.length (varietyCount (containsOf p))) dfltOption).value :=
  ⟨rfl, rfl⟩

/-! ## C1 -/

/-- C1 counterexample: the claim says the resolver returns the tier with
the greatest index whose thresholds are met.  Over the tier table
`[(id 0, len 0, div 0), (id 1, len 100, div 0), (id 2, len 1, div 0)]`
(which satisfies the tier-0 invariant) and the password `aaaa`, index 2
qualifies (`minLength 1 ≤ 4`, `minDiversity 0 ≤ 1`) and is the greatest
qualifying index of the three-tier table, yet the code returns tier id 0:
the forward walk stops at the non-qualifying tier 1 and never reaches
tier 2. -/
theorem C1_counterexample :
    (([⟨0, "Too weak", 0, 0⟩, ⟨1, "Weak", 0, 100⟩, ⟨2, "Medium", 0, 1⟩] :
          List PasswordOption).getD 0 dfltOption).minLength = 0 ∧
      (([⟨0, "Too weak", 0, 0⟩, ⟨1, "Weak", 0, 100⟩, ⟨2, "Medium", 0, 1⟩] :
          List PasswordOption).getD 0 dfltOption).minDiversity = 0 ∧
      ([⟨0, "Too weak", 0, 0⟩, ⟨1, "Weak", 0, 100⟩, ⟨2, "Medium", 0, 1⟩] :
          List PasswordOption).length = 3 ∧
      tierQualifies ("aaaa".toList).length (varietyCount (containsOf "aaaa".toList))
        (([⟨0, "Too weak", 0, 0⟩, ⟨1, "Weak", 0, 100⟩, ⟨2, "Medium", 0, 1⟩] :
          List PasswordOption).getD 2 dfltOption) = true ∧
      (checkPasswordStrength "aaaa".toList none
        [⟨0, "Too weak", 0, 0⟩, ⟨1, "Weak", 0, 100⟩, ⟨2, "Medium", 0, 1⟩]).id = 0 ∧
      (([⟨0, "Too weak", 0, 0⟩, ⟨1, "Weak", 0, 100⟩, ⟨2, "Medium", 0, 1⟩] :
          List PasswordOption).getD 2 dfltOption).id = 2 := by
  refine ⟨rfl, rfl, rfl, ?_, ?_, rfl⟩ <;> decide

/-- C1 amended: with no hard requirements and a tier table satisfying the
tier-0 invariant, `checkPasswordStrength` returns the highest qualifying
tier reachable from the first qualifying tier (tier 0) by a contiguous
forward walk: the resolved tier is at an index `j` such that every tier
up to `j` qualifies and the next tier, when one exists, does not. -/
theorem C1_contiguous_highest_tier (p : List Char) (opts : List PasswordOption)
    (hne : opts ≠ [])
    (h0len : (opts.getD 0 dfltOption).minLength = 0)
    (h0div : (opts.getD 0 dfltOption).minDiversity = 0) :
    ∃ j, j < opts.length ∧
      (checkPasswordStrength p none opts).id = (opts.getD j dfltOption).id ∧
      (checkPasswordStrength p none opts).value = (opts.getD j dfltOption).value ∧
      (∀ k, k ≤ j →
        tierQualifies p.length (varietyCount (containsOf p)) (opts.getD k dfltOption) = true) ∧
      (j + 1 < opts.length →
        tierQualifies p.length (varietyCount (containsOf p)) (opts.getD (j + 1) dfltOption) =
          false) := by
  set len := p.length with hlen
  set div := varietyCount (containsOf p) with hdiv
  have h0 : tierQualifies len div (opts.getD 0 dfltOption) = true := by
    simp only [tierQualifies, Bool.and_eq_true, decide_eq_true_eq, h0len, h0div]
    exact ⟨Nat.zero_le _, Nat.zero_le _⟩
  refine ⟨strengthIndex opts len div, strengthIndex_lt opts len div h0 hne,
    (check_id_value p opts).1, (check_id_value p opts).2, ?_, ?_⟩
  · intro k hk
    rw [strengthIndex_eq_run opts len div h0 hne] at hk
    cases k with
    | zero => exact h0
    | succ m =>
      rw [← getD_drop_one]
      exact getD_takeWhile_true _ _ _ m (by omega)
  · intro hj
    rw [strengthIndex_eq_run opts len div h0 hne] at hj ⊢
    rw [← getD_drop_one]
    refine getD_after_takeWhile _ _ _ ?_
    cases opts with
    | nil => exact absurd rfl hne
    | cons o rest => simpa using hj

/-- C1 amended witness at the default table and password `Password123!`:
the resolver lands on a tier index whose whole prefix qualifies and whose
successor, if any, fails. -/
theorem C1_contiguous_highest_tier_witness :
    ∃ j, j < defaultOptions.length ∧
      (checkPasswordStrength "Password123!".toList none defaultOptions).id =
        (defaultOptions.getD j dfltOption).id ∧
      (checkPasswordStrength "Password123!".toList none defaultOptions).value =
        (defaultOptions.getD j dfltOption).value ∧
      (∀ k, k ≤ j →
        tierQualifies ("Password123!".toList).length
          (varietyCount (containsOf "Password123!".toList))
          (defaultOptions.getD k dfltOption) = true) ∧
      (j + 1 < defaultOptions.length →
        tierQualifies ("Password123!".toList).length
          (varietyCount (containsOf "Password123!".toList))
          (defaultOptions.getD (j + 1) dfltOption) = false) :=
  C1_contiguous_highest_tier "Password123!".toList defaultOptions
    (by decide) (by decide) (by decide)

/-! ## C3 -/

/-- C3: for two passwords with identical presence flags evaluated with no
hard requirements over the same valid tier table (tier-0 invariant and
ids nondecreasing along the sequence), the longer password never resolves
to a strictly smaller tier id. -/
theorem C3_length_monotone (p1 p2 : List Char) (opts : List PasswordOption)
    (hne : opts ≠ [])
    (h0len : (opts.getD 0 dfltOption).minLength = 0)
    (h0div : (opts.getD 0 dfltOption).minDiversity = 0)
    (hid : ∀ j, j < opts.length → ∀ i, i ≤ j →
      (opts.getD i dfltOption).id ≤ (opts.getD j dfltOption).id)
    (hcont : containsOf p1 = containsOf p2)
    (hlen : p1.length ≤ p2.length) :
    (checkPasswordStrength p1 none opts).id ≤ (checkPasswordStrength p2 none opts).id := by
  set div := varietyCount (containsOf p2) with hdivdef
  have hdiv1 : varietyCount (containsOf p1) = div := by rw [hcont]
  have h01 : tierQualifies p1.length div (opts.getD 0 dfltOption) = true := by
    simp only [tierQualifies, Bool.and_eq_true, decide_eq_true_eq, h0len, h0div]
    exact ⟨Nat.zero_le _, Nat.zero_le _⟩
  have h02 : tierQualifies p2.length div (opts.getD 0 dfltOption) = true := by
    simp only [tierQualifies, Bool.and_eq_true, decide_eq_true_eq, h0len, h0div]
    exact ⟨Nat.zero_le _, Nat.zero_le _⟩
  rw [(check_id_value p1 opts).1, (check_id_value p2 opts).1, hdiv1]
  have hrun1 := strengthIndex_eq_run opts p1.length div h01 hne
  have hrun2 := strengthIndex_eq_run opts p2.length div h02 hne
  have hmono : strengthIndex opts p1.length div ≤ strengthIndex opts p2.length div := by
    rw [hrun1, hrun2]
    exact takeWhile_length_mono (fun t => tierQualifies_mono_len hlen t) (opts.drop 1)
  exact hid _ (strengthIndex_lt opts p2.length div h02 hne) _ hmono

/-- C3 witness: same presence flags (all four classes), lengths 8 and 12,
default table; the shorter resolves to id 1 and the longer to id 3. -/
theorem C3_length_monotone_witness :
    (checkPasswordStrength "Aa1!Aa1!".toList none defaultOptions).id ≤
      (checkPasswordStrength "Aa1!Aa1!Aa1!".toList none defaultOptions).id :=
  C3_length_monotone "Aa1!Aa1!".toList "Aa1!Aa1!Aa1!".toList defaultOptions
    (by decide) (by decide) (by decide) (by decide) (by decide) (by decide)

/-! ## C2 -/

/-- C2: with hard requirements supplied, the six gates are evaluated in
the fixed order requireCapital, requireNumber, requireSpecial,
minCapitals, minNumbers, minSpecial; the first failing check returns tier
id 0 (`Too weak`) immediately whatever the length and diversity, without
the `counts` field on the three boolean-gate paths and with it on the
three minimum-count paths. -/
theorem C2_gate_order (p : List Char) (req : PasswordRequirements)
    (opts : List PasswordOption) :
    ((truthyBool req.requireCapital && !(containsOf p).uppercase) = true →
      checkPasswordStrength p (some req) opts =
        ⟨0, "Too weak", containsOf p, p.length, none⟩) ∧
    ((truthyBool req.requireCapital && !(containsOf p).uppercase) = false →
      (truthyBool req.requireNumber && !(containsOf p).number) = true →
      checkPasswordStrength p (some req) opts =
        ⟨0, "Too weak", containsOf p, p.length, none⟩) ∧
    ((truthyBool req.requireCapital && !(containsOf p).uppercase) = false →
      (truthyBool req.requireNumber && !(containsOf p).number) = false →
      (truthyBool req.requireSpecial && !(containsOf p).symbol) = true →
      checkPasswordStrength p (some req) opts =
        ⟨0, "Too weak", containsOf p, p.length, none⟩) ∧
    ((truthyBool req.requireCapital && !(containsOf p).uppercase) = false →
      (truthyBool req.requireNumber && !(containsOf p).number) = false →
      (truthyBool req.requireSpecial && !(containsOf p).symbol) = false →
      minFails req.minCapitals (countsOf p).uppercase = true →
      checkPasswordStrength p (some req) opts =
        ⟨0, "Too weak", containsOf p, p.length, some (countsOf p)⟩) ∧
    ((truthyBool req.requireCapital && !(containsOf p).uppercase) = false →
      (truthyBool req.requireNumber && !(containsOf p).number) = false →
      (truthyBool req.requireSpecial && !(containsOf p).symbol) = false →
      minFails req.minCapitals (countsOf p).uppercase = false →
      minFails req.minNumbers (countsOf p).numbers = true →
      checkPasswordStrength p (some req) opts =
        ⟨0, "Too weak", containsOf p, p.length, some (countsOf p)⟩) ∧
    ((truthyBool req.requireCapital && !(containsOf p).uppercase) = false →
      (truthyBool req.requireNumber && !(containsOf p).number) = false →
      (truthyBool req.requireSpecial && !(containsOf p).symbol) = false →
      minFails req.minCapitals (countsOf p).uppercase = false →
      minFails req.minNumbers (countsOf p).numbers = false →
      minFails req.minSpecial (countsOf p).special = true →
      checkPasswordStrength p (some req) opts =
        ⟨0, "Too weak", containsOf p, p.length, some (countsOf p)⟩) := by
  unfold checkPasswordStrength
  dsimp only
  refine ⟨?_, ?_, ?_, ?_, ?_, ?_⟩
  · intro h1
    rw [if_pos h1]
  · intro h1 h2
    rw [if_neg (by simp [h1]), if_pos h2]
  · intro h1 h2 h3
    rw [if_neg (by simp [h1]), if_neg (by simp [h2]), if_pos h3]
  · intro h1 h2 h3 h4
    rw [if_neg (by simp [h1]), if_neg (by simp [h2]), if_neg (by simp [h3]), if_pos h4]
  · intro h1 h2 h3 h4 h5
    rw [if_neg (by simp [h1]), if_neg (by simp [h2]), if_neg (by simp [h3]),
      if_neg (by simp [h4]), if_pos h5]
  · intro h1 h2 h3 h4 h5 h6
    rw [if_neg (by simp [h1]), if_neg (by simp [h2]), if_neg (by simp [h3]),
      if_neg (by simp [h4]), if_neg (by simp [h5]), if_pos h6]

/-- C2 witness: a twelve-character all-lowercase password with
`requireNumber` set fails the second gate and is forced to tier 0 with no
counts attached, despite satisfying the default length and diversity
thresholds of tier 0 and length threshold of tier 1. -/
theorem C2_gate_order_witness :
    checkPasswordStrength "aaaaaaaaaaaa".toList
        (some ⟨none, some true, none, none, none, none⟩) defaultOptions =
      ⟨0, "Too weak", containsOf "aaaaaaaaaaaa".toList, 12, none⟩ :=
  (C2_gate_order "aaaaaaaaaaaa".toList ⟨none, some true, none, none, none, none⟩
    defaultOptions).2.1 (by decide) (by decide)

/-! ## C4 -/

/-- C4: for every password and every interpretation of `Math.log2`, the
entropy estimator's pool size is the sum of the fixed alphabet sizes
26/26/10/33 over the classes actually present, and the entropy is the
length times `log2(poolSize)` times 1.045 rounded to two decimal places,
with the empty password short-circuited to entropy 0 and pool size 0. -/
theorem C4_entropy_formula (l2 : Nat → ℚ) (p : List Char) :
    (calculatePasswordEntropy l2 p).poolSize =
        (if ∃ c ∈ p, isLowerAscii c = true then 26 else 0) +
          (if ∃ c ∈ p, isUpperAscii c = true then 26 else 0) +
          (if ∃ c ∈ p, isDigitAscii c = true then 10 else 0) +
          (if ∃ c ∈ p, isSymbolChar c = true then 33 else 0) ∧
      (calculatePasswordEntropy l2 p).length = p.length ∧
      (calculatePasswordEntropy l2 p).entropy =
        (if p.length = 0 then 0
          else roundTwo ((p.length : ℚ) *
            l2 ((calculatePasswordEntropy l2 p).poolSize) * (1045 / 1000))) := by
  by_cases hp : p.length = 0
  · have hnil : p = [] := List.length_eq_zero.mp hp
    subst hnil
    exact ⟨by simp [calculatePasswordEntropy], rfl, by simp [calculatePasswordEntropy]⟩
  · refine ⟨?_, ?_, ?_⟩
    · have hpool : (calculatePasswordEntropy l2 p).poolSize = poolSizeOf (containsOf p) := by
        simp [calculatePasswordEntropy, hp]
      rw [hpool]
      simp only [poolSizeOf, containsOf, List.any_eq_true]
    · simp [calculatePasswordEntropy, hp]
    · simp [calculatePasswordEntropy, hp]

/-! ## C5 -/

/-- C5: the crack-time estimator derives its entropy from the entropy
estimator; a zero entropy (in particular the empty password) yields four
zero raw estimates and four `instantly` strings, and otherwise each raw
estimate is `2^entropy` divided by the fixed throughput constants
100/3600, 10, 10000 and 10000000000, for every interpretation of the
`Math.log2` and `Math.pow` primitives. -/
theorem C5_crack_time (l2 : Nat → ℚ) (pw2 : ℚ → ℚ) (p : List Char) :
    (p = [] → (calculatePasswordEntropy l2 p).entropy = 0) ∧
      ((calculatePasswordEntropy l2 p).entropy = 0 →
        estimateCrackTime l2 pw2 p =
          ⟨0, 0, 0, 0, "instantly", "instantly", "instantly", "instantly"⟩) ∧
      ((calculatePasswordEntropy l2 p).entropy ≠ 0 →
        (estimateCrackTime l2 pw2 p).onlineThrottling100PerHour =
            pw2 ((calculatePasswordEntropy l2 p).entropy) / (100 / 3600) ∧
          (estimateCrackTime l2 pw2 p).onlineNoThrottling10PerSecond =
            pw2 ((calculatePasswordEntropy l2 p).entropy) / 10 ∧
          (estimateCrackTime l2 pw2 p).offlineSlowHashing1e4PerSecond =
            pw2 ((calculatePasswordEntropy l2 p).entropy) / 10000 ∧
          (estimateCrackTime l2 pw2 p).offlineFastHashing1e10PerSecond =
            pw2 ((calculatePasswordEntropy l2 p).entropy) / 10000000000) := by
  refine ⟨?_, ?_, ?_⟩
  · intro h
    subst h
    simp [calculatePasswordEntropy]
  · intro h
    simp [estimateCrackTime, h]
  · intro h
    simp [estimateCrackTime, h]

/-- C5 witness: on the empty password (with any interpretation of the
primitives) the estimator returns all-zero raw estimates and four
`instantly` strings. -/
theorem C5_crack_time_witness :
    estimateCrackTime (fun _ => 1) (fun x => x) [] =
      ⟨0, 0, 0, 0, "instantly", "instantly", "instantly", "instantly"⟩ :=
  (C5_crack_time (fun _ => 1) (fun x => x) []).2.1
    ((C5_crack_time (fun _ => 1) (fun x => x) []).1 rfl)

/-! ## C10 -/

/-- Every character belongs to at least one of the four classes. -/
theorem charClass_covers (c : Char) :
    isLowerAscii c = true ∨ isUpperAscii c = true ∨ isDigitAscii c = true ∨
      isSymbolChar c = true := by
  by_cases h1 : isLowerAscii c = true
  · exact Or.inl h1
  · by_cases h2 : isUpperAscii c = true
    · exact Or.inr (Or.inl h2)
    · by_cases h3 : isDigitAscii c = true
      · exact Or.inr (Or.inr (Or.inl h3))
      · refine Or.inr (Or.inr (Or.inr ?_))
        simp only [Bool.not_eq_true] at h1 h2 h3
        simp [isSymbolChar, h1, h2, h3]

/-- C10: for a non-empty password the pool size is at least 10 (every
character falls in one of the four classes and the smallest class
constant is 10), and, under the true facts that `Math.log2` is at least 1
on arguments at least 2 and the password has at least one character, the
computed entropy is strictly positive — the guarded empty-password branch
is the only place a zero pool could reach the logarithm. -/
theorem C10_pool_safety (l2 : Nat → ℚ) (p : List Char) (hp : p ≠ [])
    (hl2 : ∀ n : Nat, 2 ≤ n → 1 ≤ l2 n) :
    10 ≤ (calculatePasswordEntropy l2 p).poolSize ∧
      0 < (calculatePasswordEntropy l2 p).entropy := by
  have hlen0 : p.length ≠ 0 := by
    simpa using fun h => hp (List.length_eq_zero.mp h)
  have hpool : (calculatePasswordEntropy l2 p).poolSize = poolSizeOf (containsOf p) := by
    simp [calculatePasswordEntropy, hlen0]
  have hflag : (containsOf p).lowercase = true ∨ (containsOf p).uppercase = true ∨
      (containsOf p).number = true ∨ (containsOf p).symbol = true := by
    cases p with
    | nil => exact absurd rfl hp
    | cons c rest =>
      have hmem : c ∈ c :: rest := List.mem_cons_self c rest
      rcases charClass_covers c with h | h | h | h
      · exact Or.inl (by simp only [containsOf, List.any_eq_true]; exact ⟨c, hmem, h⟩)
      · exact Or.inr (Or.inl (by simp only [containsOf, List.any_eq_true]; exact ⟨c, hmem, h⟩))
      · exact Or.inr (Or.inr (Or.inl
          (by simp only [containsOf, List.any_eq_true]; exact ⟨c, hmem, h⟩)))
      · exact Or.inr (Or.inr (Or.inr
          (by simp only [containsOf, List.any_eq_true]; exact ⟨c, hmem, h⟩)))
  have hpool10 : 10 ≤ poolSizeOf (containsOf p) := by
    unfold poolSizeOf
    rcases hflag with h | h | h | h <;>
      simp only [h, eq_self_iff_true, if_true] <;> split_ifs <;> omega
  refine ⟨hpool ▸ hpool10, ?_⟩
  have hent : (calculatePasswordEntropy l2 p).entropy =
      roundTwo ((p.length : ℚ) * l2 (poolSizeOf (containsOf p)) * (1045 / 1000)) := by
    simp [calculatePasswordEntropy, hlen0]
  rw [hent]
  have hlq : (1 : ℚ) ≤ (p.length : ℚ) := by
    have : 1 ≤ p.length := Nat.one_le_iff_ne_zero.mpr hlen0
    exact_mod_cast this
  have hl2p : (1 : ℚ) ≤ l2 (poolSizeOf (containsOf p)) :=
    hl2 _ (le_trans (by norm_num) hpool10)
  have hx : (1045 / 1000 : ℚ) ≤ (p.length : ℚ) * l2 (poolSizeOf (containsOf p)) * (1045 / 1000) := by
    have h1 : (1 : ℚ) ≤ (p.length : ℚ) * l2 (poolSizeOf (containsOf p)) := by
      calc (1 : ℚ) = 1 * 1 := by ring
      _ ≤ (p.length : ℚ) * l2 (poolSizeOf (containsOf p)) :=
        mul_le_mul hlq hl2p (by norm_num) (by linarith)
    calc (1045 / 1000 : ℚ) = 1 * (1045 / 1000) := by ring
    _ ≤ (p.length : ℚ) * l2 (poolSizeOf (containsOf p)) * (1045 / 1000) :=
      mul_le_mul_of_nonneg_right h1 (by norm_num)
  unfold roundTwo jsRound
  have hfloor : (105 : ℤ) ≤ ⌊(p.length : ℚ) * l2 (poolSizeOf (containsOf p)) *
      (1045 / 1000) * 100 + 1 / 2⌋ := by
    apply Int.le_floor.mpr
    push_cast
    nlinarith
  have : (0 : ℚ) < (⌊(p.length : ℚ) * l2 (poolSizeOf (containsOf p)) *
      (1045 / 1000) * 100 + 1 / 2⌋ : ℚ) := by
    have h105 : ((105 : ℤ) : ℚ) ≤ _ := Int.cast_le.mpr hfloor
    linarith
  positivity

/-- C10 witness at the one-character password `a` and the interpretation
sending every pool size to 1. -/
theorem C10_pool_safety_witness :
    10 ≤ (calculatePasswordEntropy (fun _ => 1) "a".toList).poolSize ∧
      0 < (calculatePasswordEntropy (fun _ => 1) "a".toList).entropy :=
  C10_pool_safety (fun _ => 1) "a".toList (by decide) (fun _ _ => le_refl 1)

/-! ## C6 -/

/-- When every unit's floored quotient is below one the loop falls through. -/
theorem formatLoop_none (s : ℚ) :
    ∀ l : List (String × Nat), (∀ pr ∈ l, ⌊s / (pr.2 : ℚ)⌋ < 1) → formatLoop s l = none
  | [], _ => rfl
  | (u, usec) :: t, h => by
    have h0 : ⌊s / (usec : ℚ)⌋ < 1 := h (u, usec) (List.mem_cons_self _ _)
    have ih := formatLoop_none s t (fun pr hpr => h pr (List.mem_cons_of_mem _ hpr))
    simp only [formatLoop]
    rw [if_neg (not_le.mpr h0)]
    exact ih

/-- The loop renders the first unit whose floored quotient reaches one. -/
theorem formatLoop_sel (s : ℚ) :
    ∀ (l : List (String × Nat)) (i : Fin l.length),
      1 ≤ ⌊s / ((l.get i).2 : ℚ)⌋ →
      (∀ j (hj : j < i.val), ⌊s / ((l.get ⟨j, lt_trans hj i.isLt⟩).2 : ℚ)⌋ < 1) →
      formatLoop s l =
        some (toString ⌊s / ((l.get i).2 : ℚ)⌋ ++ " " ++ (l.get i).1 ++
          (if ⌊s / ((l.get i).2 : ℚ)⌋ ≠ 1 then "s" else ""))
  | (u, usec) :: t, ⟨0, _⟩, hq, _ => by
    simp only [List.get] at hq ⊢
    simp only [formatLoop]
    rw [if_pos hq]
  | (u, usec) :: t, ⟨k + 1, hk⟩, hq, hprev => by
    have h0 : ⌊s / (usec : ℚ)⌋ < 1 := by simpa using hprev 0 (Nat.succ_pos k)
    have ih := formatLoop_sel s t ⟨k, Nat.lt_of_succ_lt_succ hk⟩ (by simpa using hq)
      (fun j hj => by simpa using hprev (j + 1) (Nat.succ_lt_succ hj))
    simp only [formatLoop]
    rw [if_neg (not_le.mpr h0)]
    simpa using ih

/-- C6: the duration formatter returns `centuries` on a non-finite input;
otherwise `instantly` below the context threshold (1e-6 s online, 1 s
offline); otherwise `centuries` above 200 years; otherwise it renders the
largest unit of the year/month/week/day/hour/minute/second table whose
floored quotient is at least one, with a plural `s` exactly when the
value differs from one, and `instantly` when no unit qualifies. -/
theorem C6_format_estimate (context : TimeCtx) (s : ℚ) :
    formatTimeEstimate none context = "centuries" ∧
      (s < instantThreshold context → formatTimeEstimate (some s) context = "instantly") ∧
      (instantThreshold context ≤ s → (31536000 * 200 : ℚ) < s →
        formatTimeEstimate (some s) context = "centuries") ∧
      (instantThreshold context ≤ s → s ≤ (31536000 * 200 : ℚ) →
        ((∀ pr ∈ timeUnits, ⌊s / (pr.2 : ℚ)⌋ < 1) →
          formatTimeEstimate (some s) context = "instantly") ∧
        (∀ i : Fin timeUnits.length,
          1 ≤ ⌊s / ((timeUnits.get i).2 : ℚ)⌋ →
          (∀ j (hj : j < i.val),
            ⌊s / ((timeUnits.get ⟨j, lt_trans hj i.isLt⟩).2 : ℚ)⌋ < 1) →
          formatTimeEstimate (some s) context =
            toString ⌊s / ((timeUnits.get i).2 : ℚ)⌋ ++ " " ++ (timeUnits.get i).1 ++
              (if ⌊s / ((timeUnits.get i).2 : ℚ)⌋ ≠ 1 then "s" else ""))) := by
  refine ⟨rfl, ?_, ?_, ?_⟩
  · intro h
    simp only [formatTimeEstimate]
    rw [if_pos h]
  · intro h1 h2
    simp only [formatTimeEstimate]
    rw [if_neg (not_lt.mpr h1), if_pos h2]
  · intro h1 h2
    constructor
    · intro hall
      simp only [formatTimeEstimate]
      rw [if_neg (not_lt.mpr h1), if_neg (not_lt.mpr h2), formatLoop_none s timeUnits hall]
      rfl
    · intro i hq hprev
      simp only [formatTimeEstimate]
      rw [if_neg (not_lt.mpr h1), if_neg (not_lt.mpr h2),
        formatLoop_sel s timeUnits i hq hprev]
      rfl

/-- C6 witness: 90 seconds in the offline context selects the minute unit
with no plural, and half a second in the online context is above the
online threshold but below every unit, giving `instantly`. -/
theorem C6_format_estimate_witness :
    formatTimeEstimate (some 90) TimeCtx.offline = "1 minute" ∧
      formatTimeEstimate (some (1 / 2)) TimeCtx.online = "instantly" := by
  constructor
  · have h := ((C6_format_estimate TimeCtx.offline 90).2.2.2
        (by show (1 : ℚ) ≤ 90; norm_num) (by norm_num)).2
      ⟨5, by norm_num [timeUnits]⟩
      (by show (1 : ℤ) ≤ ⌊(90 : ℚ) / ((60 : Nat) : ℚ)⌋; norm_num)
      (fun j hj => by
        interval_cases j <;>
          norm_num [timeUnits, List.getElem_cons_succ, List.getElem_cons_zero])
    rw [h]
    have h60 : ⌊(90 : ℚ) / (((timeUnits.get ⟨5, by norm_num [timeUnits]⟩).2 : Nat) : ℚ)⌋ = 1 := by
      show ⌊(90 : ℚ) / ((60 : Nat) : ℚ)⌋ = 1
      norm_num
    rw [h60]
    rfl
  · exact ((C6_format_estimate TimeCtx.online (1 / 2)).2.2.2
        (by show (1 / 1000000 : ℚ) ≤ 1 / 2; norm_num) (by norm_num)).1
      (by intro pr hpr; fin_cases hpr <;> norm_num)

/-! ## C7 -/

/-- C7: the pattern analyzer appends detected-pattern entries in the
fixed detector order keyboard, alphabetic sequence, numeric sequence,
repeat, date — at most one entry per detector, first match only — and
appends one fixed suggestion per triggered category in the same order
followed by the generic suggestion exactly when the risk score exceeds
50; on `qwerty123` it reports keyboard and sequential patterns, risk
score 55, and the keyboard, sequential and generic suggestions. -/
theorem C7_pattern_order (p : List Char) :
    (analyzePasswordPatterns p).detectedPatterns =
        ((firstKeyboardHit (p.map Char.toLower)).map
            (fun s => "Keyboard pattern: " ++ quoteWrap s)).toList ++
          ((firstSeqHit alphaBase (p.map Char.toLower)).map
            (fun s => "Sequential letters: " ++ quoteWrap s)).toList ++
          ((firstSeqHit numBase (p.map Char.toLower)).map
            (fun s => "Sequential numbers: " ++ quoteWrap s)).toList ++
          ((firstRepeatRun (p.map Char.toLower)).map
            (fun s => "Repeated characters: " ++ quoteWrap s)).toList ++
          ((firstDateHit (p.map Char.toLower)).map
            (fun s => "Possible date/year: " ++ quoteWrap s)).toList ∧
      (analyzePasswordPatterns p).suggestions =
        (if (analyzePasswordPatterns p).hasKeyboardPattern then [kbSuggestion] else []) ++
          (if (analyzePasswordPatterns p).hasSequentialChars then [seqSuggestion] else []) ++
          (if (analyzePasswordPatterns p).hasRepeatedChars then [repSuggestion] else []) ++
          (if (analyzePasswordPatterns p).hasDatePattern then [dateSuggestion] else []) ++
          (if 50 < (analyzePasswordPatterns p).patternRiskScore then [genericSuggestion]
            else []) ∧
      (analyzePasswordPatterns "qwerty123".toList).hasKeyboardPattern = true ∧
      (analyzePasswordPatterns "qwerty123".toList).hasSequentialChars = true ∧
      (analyzePasswordPatterns "qwerty123".toList).patternRiskScore = 55 ∧
      (analyzePasswordPatterns "qwerty123".toList).suggestions =
        [kbSuggestion, seqSuggestion, genericSuggestion] ∧
      (analyzePasswordPatterns "qwerty123".toList).detectedPatterns =
        ["Keyboard pattern: \"qwerty\"", "Sequential numbers: \"123\""] := by
  refine ⟨rfl, rfl, ?_, ?_, ?_, ?_, ?_⟩ <;> decide

/-! ## C8 -/

/-- C8: the pattern risk score is the sum of the fixed weights of the
triggered detectors — keyboard 30, sequential 25, repeated 20, date 25,
each counted once — clamped to 100, hence always within 0 and 100. -/
theorem C8_risk_score (p : List Char) :
    (analyzePasswordPatterns p).patternRiskScore =
        min 100 ((if (firstKeyboardHit (p.map Char.toLower)).isSome then 30 else 0) +
          (if ((firstSeqHit alphaBase (p.map Char.toLower)).isSome ||
              (firstSeqHit numBase (p.map Char.toLower)).isSome) = true then 25 else 0) +
          (if (firstRepeatRun (p.map Char.toLower)).isSome then 20 else 0) +
          (if (firstDateHit (p.map Char.toLower)).isSome then 25 else 0)) ∧
      0 ≤ (analyzePasswordPatterns p).patternRiskScore ∧
      (analyzePasswordPatterns p).patternRiskScore ≤ 100 :=
  ⟨rfl, Nat.zero_le _, min_le_left _ _⟩

end Spu
